import Mathlib

/-!
Shallow embedding of the rustation-chat server core (src/main.rs).

The program is a Rocket web server with three pieces relevant here:

* the `Message` form struct with Rocket field validators
  `len(..30)` on `room` and `len(..20)` on `username`
  (Rust half-open ranges: the length must lie in `0..30`, i.e. be < 30);
* the `post` handler, which sends the validated form into a
  `tokio::sync::broadcast` channel of capacity 1024 and ignores the result;
* the `events` handler, which subscribes a fresh receiver and then loops,
  selecting between `rx.recv()` and the connection `Shutdown` future,
  yielding `Event::json(&msg)` on `Ok`, breaking on `RecvError::Closed`
  or on shutdown, and continuing on `RecvError::Lagged`.

The tokio broadcast channel is modelled by its documented observable
semantics: the channel keeps a log of all values sent while at least one
receiver exists; a receiver is a cursor into that log; a receiver that
falls more than `capacity` behind the tail observes `Lagged` and is moved
forward to the oldest retained value.
-/

/-- The `Message` form struct from src/main.rs (fields in declaration
order: room, username, message). -/
structure Message where
  room : String
  username : String
  message : String
deriving Repr, DecidableEq

/-- Rocket validator `len(..30)` on `room`: the length must be in the
half-open Rust range `..30`, i.e. strictly less than 30. -/
def validRoom (s : String) : Bool := s.length < 30

/-- Rocket validator `len(..20)` on `username`: length strictly less
than 20. -/
def validUsername (s : String) : Bool := s.length < 20

/-- The derived `FromForm` validation of `Message`: both field
validators must pass (the `message` field is unconstrained). -/
def validateMessage (m : Message) : Bool :=
  validRoom m.room && validUsername m.username

/-- A server-sent event as produced by `Event::json(&msg)`: the payload
is the serde serialization of the message. -/
structure Event where
  data : List (String × String)
deriving Repr, DecidableEq

/-- Serde serialization of `Message`: struct fields are emitted in
declaration order room, username, message. -/
def serializeMessage (m : Message) : List (String × String) :=
  [("room", m.room), ("username", m.username), ("message", m.message)]

/-- `Event::json(&msg)` from the loop body `yield Event::json(&msg)`. -/
def Event.json (m : Message) : Event :=
  ⟨serializeMessage m⟩

namespace Broadcast

/-- State of the `tokio::sync::broadcast` channel created by
`channel::<Message>(1024)`: the log of values sent so far (oldest
first), the fixed capacity, the number of live receivers, and whether
the channel is closed (all senders dropped). -/
structure Channel where
  capacity : Nat
  log : List Message
  receivers : Nat
  closed : Bool
deriving Repr, DecidableEq

/-- A broadcast receiver: a cursor into the channel log. A receiver
returned by `subscribe()` starts at the current tail of the log. -/
structure Receiver where
  pos : Nat
deriving Repr, DecidableEq

/-- `Sender::send`: with no receivers the value is dropped and the
error carries it back; otherwise the value is appended to the log and
the number of receivers is returned. -/
def Channel.send (c : Channel) (m : Message) : Channel × Except Message Nat :=
  if c.receivers = 0 then (c, Except.error m)
  else ({ c with log := c.log ++ [m] }, Except.ok c.receivers)

/-- `Sender::subscribe`: a new receiver positioned at the current tail
of the log, observing only values sent from this point forward. -/
def Channel.subscribe (c : Channel) : Channel × Receiver :=
  ({ c with receivers := c.receivers + 1 }, ⟨c.log.length⟩)

/-- Outcome of one `rx.recv()` poll, mirroring
`Result<Message, RecvError>` plus the pending case where the future is
not yet ready. -/
inductive RecvResult where
  | ok (m : Message)
  | closed
  | lagged (skipped : Nat)
  | pending
deriving Repr, DecidableEq

/-- `Receiver::recv` against the current channel state: at the tail the
result is `Closed` if the channel is closed, otherwise pending; a
receiver more than `capacity` behind the tail observes `Lagged` and is
moved to the oldest retained value; otherwise the next value is
returned and the cursor advances. -/
def Channel.recv (c : Channel) (r : Receiver) : RecvResult × Receiver :=
  let n := c.log.length
  if h : n ≤ r.pos then
    if c.closed then (RecvResult.closed, r) else (RecvResult.pending, r)
  else if c.capacity < n - r.pos then
    (RecvResult.lagged (n - c.capacity - r.pos), ⟨n - c.capacity⟩)
  else
    (RecvResult.ok (c.log.get ⟨r.pos, by omega⟩), ⟨r.pos + 1⟩)

end Broadcast

open Broadcast

/-- Which branch of the `select!` in the `events` loop completed first:
either `rx.recv()` was ready, or the `Shutdown` future `end` fired. -/
inductive SelectArm where
  | recv
  | shutdown
deriving Repr, DecidableEq

/-- What one iteration of the `events` loop did: yielded an event and
continued, continued without yielding (`Lagged` ⇒ `continue`), broke
out of the loop (`Closed` or shutdown ⇒ `break`), or stayed suspended
in the select (recv pending). -/
inductive StepOut where
  | emit (e : Event)
  | skip
  | halt
  | wait
deriving Repr, DecidableEq

/-- One iteration of the loop inside `EventStream!` in `events`:
depending on which select arm completed, either break on shutdown, or
match the `recv` result exactly as the source does —
`Ok(msg) => msg` then `yield Event::json(&msg)`,
`Err(RecvError::Closed) => break`,
`Err(RecvError::Lagged(_)) => continue`. -/
def eventsStep (c : Channel) (r : Receiver) (arm : SelectArm) :
    StepOut × Receiver :=
  match arm with
  | SelectArm.shutdown => (StepOut.halt, r)
  | SelectArm.recv =>
    match c.recv r with
    | (RecvResult.ok m, r') => (StepOut.emit (Event.json m), r')
    | (RecvResult.closed, r') => (StepOut.halt, r')
    | (RecvResult.lagged _, r') => (StepOut.skip, r')
    | (RecvResult.pending, r') => (StepOut.wait, r')

/-- A run of the `events` loop over a trace of loop iterations. Each
iteration records the channel state at that instant (publishers act
concurrently, so the log may have grown between iterations) and which
select arm completed. A `halt` stops the run: no further iterations
execute and no further events are emitted. -/
def runTrace (r : Receiver) : List (Channel × SelectArm) → List Event
  | [] => []
  | (c, arm) :: rest =>
    match eventsStep c r arm with
    | (StepOut.emit e, r') => e :: runTrace r' rest
    | (StepOut.skip, r') => runTrace r' rest
    | (StepOut.wait, r') => runTrace r' rest
    | (StepOut.halt, _) => []

/-- The `events` handler: first `queue.subscribe()` runs synchronously,
then the event stream loop runs with the receiver it returned. -/
def events (c : Channel) (tr : List (Channel × SelectArm)) :
    Channel × List Event :=
  let (c', r) := c.subscribe
  (c', runTrace r tr)

/-- Running the `events` loop against one fixed channel state until it
suspends (recv pending: nothing further will arrive from a static
channel) or breaks (`Closed`). Fuel bounds the recursion; any fuel
larger than the number of unread messages is enough. -/
def drain (c : Channel) : Receiver → Nat → List Event
  | _, 0 => []
  | r, fuel + 1 =>
    match eventsStep c r SelectArm.recv with
    | (StepOut.emit e, r') => e :: drain c r' fuel
    | (StepOut.skip, r') => drain c r' fuel
    | (StepOut.halt, _) => []
    | (StepOut.wait, _) => []

/-- The `post` handler: one `queue.send(form.into_inner())` whose
result is bound to `_res` and dropped; the handler returns unit (no
response body). -/
def post (form : Message) (c : Channel) : Channel × Unit :=
  let res := c.send form
  (res.1, ())

/-- The publish endpoint as Rocket runs it: the form is decoded and
validated by the derived `FromForm` first; only a form passing
validation reaches the `post` handler. The boolean records acceptance. -/
def publishEndpoint (m : Message) (c : Channel) : Channel × Bool :=
  if validateMessage m then ((post m c).1, true) else (c, false)

/-! ### Characterization lemmas for `recv`, `eventsStep`, `runTrace`, `drain` -/

/-- At the tail of a closed channel, `recv` yields `Closed`. -/
lemma recv_closed (c : Channel) (r : Receiver) (hcl : c.closed = true)
    (hp : c.log.length ≤ r.pos) :
    c.recv r = (RecvResult.closed, r) := by
  simp [Channel.recv, hp, hcl]

/-- At the tail of an open channel, `recv` is pending. -/
lemma recv_pending (c : Channel) (r : Receiver) (hcl : c.closed = false)
    (hp : c.log.length ≤ r.pos) :
    c.recv r = (RecvResult.pending, r) := by
  simp [Channel.recv, hp, hcl]

/-- A receiver more than `capacity` behind the tail observes `Lagged`
and is repositioned at the oldest retained value. -/
lemma recv_lagged (c : Channel) (r : Receiver)
    (hlag : c.capacity < c.log.length - r.pos) :
    c.recv r = (RecvResult.lagged (c.log.length - c.capacity - r.pos),
      ⟨c.log.length - c.capacity⟩) := by
  have hp : ¬ c.log.length ≤ r.pos := by omega
  simp [Channel.recv, hp, hlag]

/-- A receiver strictly before the tail and within `capacity` of it
receives the next logged value and advances by one. -/
lemma recv_ok (c : Channel) (r : Receiver) (hp : r.pos < c.log.length)
    (hnl : c.log.length - r.pos ≤ c.capacity) :
    c.recv r = (RecvResult.ok (c.log.get ⟨r.pos, hp⟩), ⟨r.pos + 1⟩) := by
  have h1 : ¬ c.log.length ≤ r.pos := by omega
  have h2 : ¬ c.capacity < c.log.length - r.pos := by omega
  simp [Channel.recv, h1, h2]

/-- The shutdown arm of the select breaks the loop. -/
lemma step_shutdown (c : Channel) (r : Receiver) :
    eventsStep c r SelectArm.shutdown = (StepOut.halt, r) := rfl

/-- A ready message is emitted as `Event::json` and the loop continues. -/
lemma step_ok (c : Channel) (r : Receiver) (hp : r.pos < c.log.length)
    (hnl : c.log.length - r.pos ≤ c.capacity) :
    eventsStep c r SelectArm.recv =
      (StepOut.emit (Event.json (c.log.get ⟨r.pos, hp⟩)), ⟨r.pos + 1⟩) := by
  simp [eventsStep, recv_ok c r hp hnl]

/-- `RecvError::Closed` breaks the loop. -/
lemma step_closed (c : Channel) (r : Receiver) (hcl : c.closed = true)
    (hp : c.log.length ≤ r.pos) :
    eventsStep c r SelectArm.recv = (StepOut.halt, r) := by
  simp [eventsStep, recv_closed c r hcl hp]

/-- `RecvError::Lagged` continues without emitting; the receiver has
been moved forward to the oldest retained value. -/
lemma step_lagged (c : Channel) (r : Receiver)
    (hlag : c.capacity < c.log.length - r.pos) :
    eventsStep c r SelectArm.recv =
      (StepOut.skip, ⟨c.log.length - c.capacity⟩) := by
  simp [eventsStep, recv_lagged c r hlag]

/-- A recv with nothing available on an open channel stays suspended. -/
lemma step_pending (c : Channel) (r : Receiver) (hcl : c.closed = false)
    (hp : c.log.length ≤ r.pos) :
    eventsStep c r SelectArm.recv = (StepOut.wait, r) := by
  simp [eventsStep, recv_pending c r hcl hp]

lemma runTrace_cons_emit {c : Channel} {r : Receiver} {arm : SelectArm}
    {e : Event} {r' : Receiver} {rest : List (Channel × SelectArm)}
    (h : eventsStep c r arm = (StepOut.emit e, r')) :
    runTrace r ((c, arm) :: rest) = e :: runTrace r' rest := by
  simp [runTrace, h]

lemma runTrace_cons_skip {c : Channel} {r : Receiver} {arm : SelectArm}
    {r' : Receiver} {rest : List (Channel × SelectArm)}
    (h : eventsStep c r arm = (StepOut.skip, r')) :
    runTrace r ((c, arm) :: rest) = runTrace r' rest := by
  simp [runTrace, h]

lemma runTrace_cons_wait {c : Channel} {r : Receiver} {arm : SelectArm}
    {r' : Receiver} {rest : List (Channel × SelectArm)}
    (h : eventsStep c r arm = (StepOut.wait, r')) :
    runTrace r ((c, arm) :: rest) = runTrace r' rest := by
  simp [runTrace, h]

lemma runTrace_cons_halt {c : Channel} {r : Receiver} {arm : SelectArm}
    {r' : Receiver} {rest : List (Channel × SelectArm)}
    (h : eventsStep c r arm = (StepOut.halt, r')) :
    runTrace r ((c, arm) :: rest) = [] := by
  simp [runTrace, h]

lemma drain_succ_emit {c : Channel} {r : Receiver} {e : Event}
    {r' : Receiver} {fuel : Nat}
    (h : eventsStep c r SelectArm.recv = (StepOut.emit e, r')) :
    drain c r (fuel + 1) = e :: drain c r' fuel := by
  simp [drain, h]

lemma drain_succ_halt {c : Channel} {r : Receiver} {r' : Receiver} {fuel : Nat}
    (h : eventsStep c r SelectArm.recv = (StepOut.halt, r')) :
    drain c r (fuel + 1) = [] := by
  simp [drain, h]

lemma drain_succ_wait {c : Channel} {r : Receiver} {r' : Receiver} {fuel : Nat}
    (h : eventsStep c r SelectArm.recv = (StepOut.wait, r')) :
    drain c r (fuel + 1) = [] := by
  simp [drain, h]

/-- Draining a channel from position `p` with enough fuel, while within
capacity of the tail, emits exactly the logged messages from `p` on, in
log order, each exactly once, serialized by `Event.json`. -/
lemma drain_eq_drop (c : Channel) (fuel p : Nat)
    (hnl : c.log.length - p ≤ c.capacity)
    (hf : c.log.length - p < fuel) :
    drain c ⟨p⟩ fuel = (c.log.drop p).map Event.json := by
  induction fuel generalizing p with
  | zero => exact absurd hf (by omega)
  | succ fuel ih =>
    by_cases hp : c.log.length ≤ p
    · rw [List.drop_eq_nil_of_le hp, List.map_nil]
      cases hcl : c.closed with
      | false => rw [drain_succ_wait (step_pending c ⟨p⟩ hcl hp)]
      | true => rw [drain_succ_halt (step_closed c ⟨p⟩ hcl hp)]
    · push_neg at hp
      rw [List.drop_eq_getElem_cons hp, List.map_cons,
        drain_succ_emit (step_ok c ⟨p⟩ hp hnl), ih (p + 1) (by omega) (by omega)]
      simp [List.get_eq_getElem]

/-- An element of a list read at an index past the length of a known
leading segment lies in the trailing segment. -/
lemma get_mem_of_ge (base ext L : List Message) (hL : L = base ++ ext)
    (i : Nat) (hi : i < L.length) (hbase : base.length ≤ i) :
    L.get ⟨i, hi⟩ ∈ ext := by
  subst hL
  simp only [List.get_eq_getElem]
  rw [List.getElem_append_right hbase]
  exact List.getElem_mem _

/-- Invariant run of the loop: starting at or past the length of a base
log, against channel states that all extend that base log, every
emitted event serializes a message from the extension part of one of
those states. -/
lemma runTrace_mem_ext (base : List Message) (tr : List (Channel × SelectArm)) :
    ∀ r : Receiver, base.length ≤ r.pos →
      (∀ p ∈ tr, ∃ ext, p.1.log = base ++ ext) →
      ∀ e ∈ runTrace r tr,
        ∃ p ∈ tr, ∃ ext, p.1.log = base ++ ext ∧ ∃ m ∈ ext, e = Event.json m := by
  induction tr with
  | nil => intro r _ _ e he; simp [runTrace] at he
  | cons hd rest ih =>
    intro r hpos hext e he
    obtain ⟨c, arm⟩ := hd
    have hrest : ∀ p ∈ rest, ∃ ext, p.1.log = base ++ ext :=
      fun p hp => hext p (List.mem_cons_of_mem _ hp)
    cases arm with
    | shutdown =>
      rw [runTrace_cons_halt (step_shutdown c r)] at he
      simp at he
    | recv =>
      by_cases hp : c.log.length ≤ r.pos
      · cases hcl : c.closed with
        | true =>
          rw [runTrace_cons_halt (step_closed c r hcl hp)] at he
          simp at he
        | false =>
          rw [runTrace_cons_wait (step_pending c r hcl hp)] at he
          obtain ⟨p, hpmem, hrest'⟩ := ih r hpos hrest e he
          exact ⟨p, List.mem_cons_of_mem _ hpmem, hrest'⟩
      · push_neg at hp
        by_cases hlag : c.capacity < c.log.length - r.pos
        · rw [runTrace_cons_skip (step_lagged c r hlag)] at he
          have hpos' : base.length ≤ c.log.length - c.capacity := by omega
          obtain ⟨p, hpmem, hrest'⟩ :=
            ih ⟨c.log.length - c.capacity⟩ hpos' hrest e he
          exact ⟨p, List.mem_cons_of_mem _ hpmem, hrest'⟩
        · push_neg at hlag
          rw [runTrace_cons_emit (step_ok c r hp hlag)] at he
          rcases List.mem_cons.mp he with he | he
          · obtain ⟨ext, hlog⟩ :=
              hext (c, SelectArm.recv) (List.mem_cons_self _ _)
            exact ⟨(c, SelectArm.recv), List.mem_cons_self _ _, ext, hlog,
              c.log.get ⟨r.pos, hp⟩,
              get_mem_of_ge base ext c.log hlog r.pos hp hpos, he⟩
          · obtain ⟨p, hpmem, hrest'⟩ :=
              ih ⟨r.pos + 1⟩ (by show base.length ≤ r.pos + 1; omega) hrest e he
            exact ⟨p, List.mem_cons_of_mem _ hpmem, hrest'⟩

/-! ### Claims -/

/-- Claim C1, counterexample: the claim says a `room` of exactly 30
units is accepted and a `username` of exactly 20 units is accepted, but
the validators are the half-open Rust ranges `len(..30)` and
`len(..20)`, so a 30-unit room and a 20-unit username are both
rejected. -/
theorem C1_counterexample :
    validateMessage ⟨String.mk (List.replicate 30 'a'), "u", "body"⟩ = false ∧
    validateMessage ⟨"general", String.mk (List.replicate 20 'b'), "body"⟩ = false := by
  constructor <;> decide

/-- Claim C1, amended: acceptance is decided exactly by
`room` length < 30 and `username` length < 20; in particular a 29-unit
room is accepted and a 30-unit room rejected, a 19-unit username is
accepted and a 20-unit username rejected. -/
theorem C1_bounds :
    (∀ m : Message,
      validateMessage m = true ↔ m.room.length < 30 ∧ m.username.length < 20) ∧
    validateMessage ⟨String.mk (List.replicate 29 'a'), "u", "body"⟩ = true ∧
    validateMessage ⟨String.mk (List.replicate 30 'a'), "u", "body"⟩ = false ∧
    validateMessage ⟨"general", String.mk (List.replicate 19 'b'), "body"⟩ = true ∧
    validateMessage ⟨"general", String.mk (List.replicate 20 'b'), "body"⟩ = false := by
  refine ⟨fun m => ?_, by decide, by decide, by decide, by decide⟩
  simp [validateMessage, validRoom, validUsername]

/-- Claim C1, witness for the amended bound characterization at a
concrete accepted form. -/
theorem C1_bounds_witness :
    validateMessage ⟨"general", "alice", "hi"⟩ = true :=
  (C1_bounds.1 ⟨"general", "alice", "hi"⟩).mpr (by decide)

/-- Claim C2: on a lagged receive the loop emits nothing and does not
terminate — the run over the remaining trace continues with the
repositioned receiver — and that repositioned receiver can receive a
subsequent message on its next iteration. -/
theorem C2_lag_skip (c : Channel) (r : Receiver)
    (rest : List (Channel × SelectArm))
    (hcap : 0 < c.capacity)
    (hlag : c.capacity < c.log.length - r.pos) :
    eventsStep c r SelectArm.recv =
      (StepOut.skip, ⟨c.log.length - c.capacity⟩) ∧
    runTrace r ((c, SelectArm.recv) :: rest) =
      runTrace ⟨c.log.length - c.capacity⟩ rest ∧
    ∃ m : Message, eventsStep c ⟨c.log.length - c.capacity⟩ SelectArm.recv =
      (StepOut.emit (Event.json m), ⟨c.log.length - c.capacity + 1⟩) := by
  have hs := step_lagged c r hlag
  have hp : c.log.length - c.capacity < c.log.length := by omega
  have hnl : c.log.length - (c.log.length - c.capacity) ≤ c.capacity := by omega
  exact ⟨hs, runTrace_cons_skip hs,
    c.log.get ⟨c.log.length - c.capacity, hp⟩,
    step_ok c ⟨c.log.length - c.capacity⟩ hp hnl⟩

/-- Claim C2, witness: capacity 1, three published messages, receiver
at position 0: it lags, skips to position 2, and then receives the
third message. -/
theorem C2_lag_skip_witness :
    eventsStep ⟨1, [⟨"r", "u", "a"⟩, ⟨"r", "u", "b"⟩, ⟨"r", "u", "c"⟩], 1, false⟩
        ⟨0⟩ SelectArm.recv = (StepOut.skip, ⟨2⟩) ∧
    runTrace ⟨0⟩
        [(⟨1, [⟨"r", "u", "a"⟩, ⟨"r", "u", "b"⟩, ⟨"r", "u", "c"⟩], 1, false⟩,
          SelectArm.recv)] =
      runTrace ⟨2⟩ [] ∧
    ∃ m : Message,
      eventsStep ⟨1, [⟨"r", "u", "a"⟩, ⟨"r", "u", "b"⟩, ⟨"r", "u", "c"⟩], 1, false⟩
        ⟨2⟩ SelectArm.recv = (StepOut.emit (Event.json m), ⟨3⟩) :=
  C2_lag_skip ⟨1, [⟨"r", "u", "a"⟩, ⟨"r", "u", "b"⟩, ⟨"r", "u", "c"⟩], 1, false⟩
    ⟨0⟩ [] (by decide) (by decide)

/-- Claim C3: when the channel is closed and the receiver has consumed
the log, the loop breaks out normally: no event is emitted, no error is
surfaced, the run ends. -/
theorem C3_closed_halt (c : Channel) (r : Receiver)
    (rest : List (Channel × SelectArm))
    (hcl : c.closed = true) (hp : c.log.length ≤ r.pos) :
    eventsStep c r SelectArm.recv = (StepOut.halt, r) ∧
    runTrace r ((c, SelectArm.recv) :: rest) = [] := by
  have hs := step_closed c r hcl hp
  exact ⟨hs, runTrace_cons_halt hs⟩

/-- Claim C3, witness: a closed empty channel ends the stream at once,
even with further trace iterations pending. -/
theorem C3_closed_halt_witness :
    eventsStep ⟨1024, [], 0, true⟩ ⟨0⟩ SelectArm.recv = (StepOut.halt, ⟨0⟩) ∧
    runTrace ⟨0⟩
        [(⟨1024, [], 0, true⟩, SelectArm.recv),
         (⟨1024, [], 0, true⟩, SelectArm.recv)] = [] :=
  C3_closed_halt ⟨1024, [], 0, true⟩ ⟨0⟩ [(⟨1024, [], 0, true⟩, SelectArm.recv)]
    (by decide) (by decide)

/-- Claim C4: a validated form reaching `post` causes exactly one send
on the channel and the handler returns unit (no content); with zero
receivers the send result is the error carrying the message back, yet
nothing of it is surfaced, and with at least one receiver the send
appends exactly the message to the log. -/
theorem C4_post_success (form : Message) (c : Channel)
    (hv : validateMessage form = true) :
    publishEndpoint form c = ((c.send form).1, true) ∧
    post form c = ((c.send form).1, ()) ∧
    (c.receivers = 0 → c.send form = (c, Except.error form)) ∧
    (0 < c.receivers → (c.send form).1.log = c.log ++ [form]) := by
  refine ⟨by simp [publishEndpoint, hv, post], rfl, fun h0 => ?_, fun hr => ?_⟩
  · simp [Channel.send, h0]
  · simp [Channel.send, Nat.pos_iff_ne_zero.mp hr]

/-- Claim C4, witness: publishing a valid form on a channel with zero
receivers returns unit and surfaces no error. -/
theorem C4_post_success_witness :
    publishEndpoint ⟨"r", "u", "x"⟩ ⟨1024, [], 0, false⟩ =
      ((Channel.send ⟨1024, [], 0, false⟩ ⟨"r", "u", "x"⟩).1, true) ∧
    Channel.send ⟨1024, [], 0, false⟩ ⟨"r", "u", "x"⟩ =
      (⟨1024, [], 0, false⟩, Except.error ⟨"r", "u", "x"⟩) := by
  have h := C4_post_success ⟨"r", "u", "x"⟩ ⟨1024, [], 0, false⟩ (by decide)
  exact ⟨h.1, h.2.2.1 rfl⟩

/-- Claim C5: the `events` handler calls `subscribe()` synchronously
before its stream loop runs — `events` is by definition the loop run
with the receiver `subscribe` returned, and that receiver is cursored
at the current end of the log — so all `ms` published after the
subscription (within capacity) are observed by the stream. -/
theorem C5_subscribe_first (c : Channel) (ms : List Message)
    (tr : List (Channel × SelectArm)) (hcap : ms.length ≤ c.capacity) :
    (c.subscribe).2.pos = c.log.length ∧
    events c tr = ((c.subscribe).1, runTrace (c.subscribe).2 tr) ∧
    drain { (c.subscribe).1 with log := c.log ++ ms } (c.subscribe).2
      (ms.length + 1) = ms.map Event.json := by
  refine ⟨rfl, rfl, ?_⟩
  have hr : (c.subscribe).2 = (⟨c.log.length⟩ : Receiver) := rfl
  have h := drain_eq_drop { (c.subscribe).1 with log := c.log ++ ms }
    (ms.length + 1) c.log.length
    (by show (c.log ++ ms).length - c.log.length ≤ c.capacity; simp; omega)
    (by show (c.log ++ ms).length - c.log.length < ms.length + 1; simp)
  rw [hr, h]
  show ((c.log ++ ms).drop c.log.length).map Event.json = ms.map Event.json
  rw [List.drop_left]

/-- Claim C5, witness: on a fresh channel, the subscriber obtained
before a publish observes that publish. -/
theorem C5_subscribe_first_witness :
    (Channel.subscribe ⟨1024, [], 0, false⟩).2.pos = 0 ∧
    events ⟨1024, [], 0, false⟩ [] =
      ((Channel.subscribe ⟨1024, [], 0, false⟩).1,
        runTrace (Channel.subscribe ⟨1024, [], 0, false⟩).2 []) ∧
    drain ⟨1024, [⟨"general", "alice", "hi"⟩], 1, false⟩ ⟨0⟩ 2 =
      [Event.json ⟨"general", "alice", "hi"⟩] :=
  C5_subscribe_first ⟨1024, [], 0, false⟩ [⟨"general", "alice", "hi"⟩] []
    (by decide)

/-- Claim C6: a receiver obtained by `subscribe` starts at the end of
the log at subscription time, so over any later trace — channel states
all extending that log — every event the stream emits serializes a
message from the extension, i.e. one published after the subscribe
call; messages published before it are never delivered to this
subscriber. -/
theorem C6_independent (c₀ : Channel) (tr : List (Channel × SelectArm))
    (hext : ∀ p ∈ tr, ∃ ext, p.1.log = c₀.log ++ ext) :
    ∀ e ∈ runTrace (c₀.subscribe).2 tr,
      ∃ p ∈ tr, ∃ ext, p.1.log = c₀.log ++ ext ∧ ∃ m ∈ ext, e = Event.json m :=
  runTrace_mem_ext c₀.log tr (c₀.subscribe).2 (Nat.le_refl _) hext

/-- Claim C6, witness: a subscriber joining after one message was
published only ever receives the message published afterwards. -/
theorem C6_independent_witness :
    ∃ p ∈ ([(⟨1024, [⟨"r", "u", "pre"⟩, ⟨"r", "u", "new"⟩], 1, false⟩,
        SelectArm.recv)] : List (Channel × SelectArm)),
      ∃ ext, p.1.log = [⟨"r", "u", "pre"⟩] ++ ext ∧
        ∃ m ∈ ext, Event.json ⟨"r", "u", "new"⟩ = Event.json m :=
  C6_independent ⟨1024, [⟨"r", "u", "pre"⟩], 0, false⟩
    ([(⟨1024, [⟨"r", "u", "pre"⟩, ⟨"r", "u", "new"⟩], 1, false⟩,
      SelectArm.recv)] : List (Channel × SelectArm))
    (by
      intro p hp
      rw [List.mem_singleton] at hp
      subst hp
      exact ⟨[⟨"r", "u", "new"⟩], rfl⟩)
    (Event.json ⟨"r", "u", "new"⟩) (by decide)

/-- Claim C7: when the shutdown arm of the select completes, the loop
breaks at once — whatever unread messages the channel holds — emitting
nothing further and ignoring the rest of the trace. The loop never
writes to the channel in this embedding (a step returns only the new
receiver state), so the broadcaster and any other subscriber are
untouched by construction. -/
theorem C7_shutdown (c : Channel) (r : Receiver)
    (rest : List (Channel × SelectArm)) :
    eventsStep c r SelectArm.shutdown = (StepOut.halt, r) ∧
    runTrace r ((c, SelectArm.shutdown) :: rest) = [] :=
  ⟨step_shutdown c r, runTrace_cons_halt (step_shutdown c r)⟩

/-- Claim C8: every event the loop emits is `Event.json` of the logged
message at the receiver cursor; the serialized payload lists the fields
in declaration order room, username, message; and the concrete scenario
— publish room "general", username "alice", message "hi" with one
subscriber connected — yields exactly that triple as the next event. -/
theorem C8_event_payload (c : Channel) (r : Receiver) (arm : SelectArm)
    (e : Event) (r' : Receiver)
    (hstep : eventsStep c r arm = (StepOut.emit e, r')) :
    (∃ hp : r.pos < c.log.length, e = Event.json (c.log.get ⟨r.pos, hp⟩)) ∧
    (∀ m : Message, (Event.json m).data =
      [("room", m.room), ("username", m.username), ("message", m.message)]) ∧
    runTrace ⟨0⟩ [(⟨1024, [⟨"general", "alice", "hi"⟩], 1, false⟩, SelectArm.recv)]
      = [⟨[("room", "general"), ("username", "alice"), ("message", "hi")]⟩] := by
  refine ⟨?_, fun m => rfl, by decide⟩
  cases arm with
  | shutdown => exact absurd hstep (by simp [eventsStep])
  | recv =>
    by_cases hp : c.log.length ≤ r.pos
    · cases hcl : c.closed with
      | true =>
        rw [step_closed c r hcl hp] at hstep
        exact absurd hstep (by simp)
      | false =>
        rw [step_pending c r hcl hp] at hstep
        exact absurd hstep (by simp)
    · push_neg at hp
      by_cases hlag : c.capacity < c.log.length - r.pos
      · rw [step_lagged c r hlag] at hstep
        exact absurd hstep (by simp)
      · push_neg at hlag
        rw [step_ok c r hp hlag] at hstep
        refine ⟨hp, ?_⟩
        injection hstep with h1 h2
        injection h1 with h1
        exact h1.symm

/-- Claim C8, witness at the concrete scenario step. -/
theorem C8_event_payload_witness :
    (∃ hp : (0 : Nat) < (1 : Nat),
      Event.json ⟨"general", "alice", "hi"⟩ =
        Event.json (([⟨"general", "alice", "hi"⟩] : List Message).get ⟨0, hp⟩)) ∧
    (∀ m : Message, (Event.json m).data =
      [("room", m.room), ("username", m.username), ("message", m.message)]) ∧
    runTrace ⟨0⟩ [(⟨1024, [⟨"general", "alice", "hi"⟩], 1, false⟩, SelectArm.recv)]
      = [⟨[("room", "general"), ("username", "alice"), ("message", "hi")]⟩] :=
  C8_event_payload ⟨1024, [⟨"general", "alice", "hi"⟩], 1, false⟩ ⟨0⟩
    SelectArm.recv (Event.json ⟨"general", "alice", "hi"⟩) ⟨1⟩ (by decide)

/-- Claim C9: a connected subscriber that never lags (its distance to
the tail stays within capacity) observes, with enough loop iterations,
exactly the messages logged from its cursor on — each exactly once, in
publish order (per-subscriber FIFO). -/
theorem C9_fifo (c : Channel) (r : Receiver) (fuel : Nat)
    (hnl : c.log.length - r.pos ≤ c.capacity)
    (hf : c.log.length - r.pos < fuel) :
    drain c r fuel = (c.log.drop r.pos).map Event.json := by
  obtain ⟨p⟩ := r
  exact drain_eq_drop c fuel p hnl hf

/-- Claim C9, witness: two published messages are delivered exactly
once each, in publish order. -/
theorem C9_fifo_witness :
    drain ⟨1024, [⟨"r", "alice", "one"⟩, ⟨"r", "bob", "two"⟩], 1, false⟩ ⟨0⟩ 3 =
      [Event.json ⟨"r", "alice", "one"⟩, Event.json ⟨"r", "bob", "two"⟩] :=
  C9_fifo ⟨1024, [⟨"r", "alice", "one"⟩, ⟨"r", "bob", "two"⟩], 1, false⟩ ⟨0⟩ 3
    (by decide) (by decide)

/-- Claim C10: the validators impose no lower bound — an empty room and
an empty username pass validation, and the form is handed to the
broadcaster by the publish endpoint. -/
theorem C10_empty_fields (body : String) (c : Channel) :
    validateMessage ⟨"", "", body⟩ = true ∧
    publishEndpoint ⟨"", "", body⟩ c = ((c.send ⟨"", "", body⟩).1, true) := by
  have hv : validateMessage ⟨"", "", body⟩ = true := rfl
  exact ⟨hv, by simp [publishEndpoint, hv, post]⟩
